import Mathlib

/-! # Doppler CLI: login, scope conflict resolution, auth-code polling and token roll

A shallow embedding of `src/pkg/cmd/login.go` (`loginCmd.Run` and
`loginRollCmd.Run`).  The command talks to external collaborators (prompts,
the remote API, the clock, the configuration store).  Their answers are the
fields of an environment record; every call the command makes is appended to a
trace of `Event`s, so that "which calls were made, with which arguments, in
which order" is a statement about a list.

Time is a natural number of nanoseconds, like Go's `time.Duration`.
-/

namespace Doppler

/-! ## Data model -/

/-- A decoded JSON value of an API response (`interface{}` in the source).  The
command only ever asks whether a value is a string (`.(string)`). -/
inductive Value where
  | str (s : String)
  | other
  deriving DecidableEq

/-- A decoded API response, `map[string]interface{}` in the source. -/
abbrev Response := List (String × Value)

/-- The error value returned by the `http` package; `Code` is the HTTP status. -/
structure APIError where
  Code : Nat
  Message : String
  deriving DecidableEq

/-- One option of a resolved configuration: its value and the scope it was
found at (`models.ScopedOption`, used as `prevConfig.Token.Value`,
`prevConfig.Token.Scope`). -/
structure ScopedOption where
  Value : String
  Scope : String
  deriving DecidableEq

/-- The options of a resolved configuration that the login command reads
(`models.ScopedOptions`). -/
structure ScopedOptions where
  Token : ScopedOption
  APIHost : ScopedOption
  VerifyTLS : ScopedOption
  deriving DecidableEq

/-- The option keys the command writes (`models.ConfigToken`,
`models.ConfigAPIHost`, `models.ConfigDashboardHost`, `models.ConfigVerifyTLS`). -/
inductive ConfigOption where
  | ConfigToken
  | ConfigAPIHost
  | ConfigDashboardHost
  | ConfigVerifyTLS
  deriving DecidableEq

/-- The `map[string]string` handed to `configuration.Set`. -/
abbrev Options := List (ConfigOption × String)

/-- Every call to an external collaborator that the commands make. -/
inductive Event where
  | confirmationPrompt (message : String) (defaultValue : Bool)
  | selectPrompt (message : String) (options : List String) (defaultOption : String)
  | generateAuthCode (apiHost : String) (verifyTLS : Bool) (hostname hostOS hostArch : String)
  | copyToClipboard (code : String)
  | openBrowser (authURL : String)
  | getAuthToken (apiHost : String) (verifyTLS : Bool) (code : String) (sentAt : Nat)
  | sleep (duration : Nat)
  | configSet (scope : String) (options : Options)
  | revokeAuthToken (apiHost : String) (verifyTLS : Bool) (token : String)
  | rollAuthToken (apiHost : String) (verifyTLS : Bool) (token : String)
  deriving DecidableEq

/-- The event is a write to the configuration store. -/
def Event.isConfigSet : Event → Bool
  | .configSet _ _ => true
  | _ => false

/-- The event is a call to the remote API. -/
def Event.isRemote : Event → Bool
  | .generateAuthCode _ _ _ _ _ => true
  | .getAuthToken _ _ _ _ => true
  | .revokeAuthToken _ _ _ => true
  | .rollAuthToken _ _ _ => true
  | _ => false

/-- The event is a token revocation. -/
def Event.isRevoke : Event → Bool
  | .revokeAuthToken _ _ _ => true
  | _ => false

/-- One nanosecond-based second, `time.Second`. -/
def Second : Nat := 1000000000

/-- One minute, `time.Minute`. -/
def Minute : Nat := 60 * Second

/-- Modelled from the spec: `utils.GetBool` is not under src.  The spec gives the
TLS flag as a boolean with a default that an omitted field denotes; a stored
string that spells a boolean yields that boolean and any other string (the
empty string of an omitted field among them) yields the default passed by the
caller. -/
def GetBool (value : String) (defaultValue : Bool) : Bool :=
  if value ∈ ["1", "t", "T", "TRUE", "true", "True"] then true
  else if value ∈ ["0", "f", "F", "FALSE", "false", "False"] then false
  else defaultValue

/-! ## The polling loop (login.go lines 116-139) -/

/-- What the `i`-th call of `http.GetAuthToken` does: how long it takes to
return, and the pair `(resp, err)` it returns. -/
structure PollEvent where
  latency : Nat
  resp : Option Response
  err : Option APIError

/-- How the polling loop is left. -/
inductive PollExit where
  | timedOut
  | failed (err : APIError)
  | response (resp : Option Response) (receivedAt : Nat)
  deriving DecidableEq

/-- The `for` loop of `loginCmd.Run`.  `now` is the clock when the deadline
check runs, `i` counts the calls of `GetAuthToken` made so far.  `none` means
the fuel ran out. -/
def pollLoop (apiHost : String) (verifyTLS : Bool) (code : String)
    (polls : Nat → PollEvent) (completeBy : Nat) :
    (fuel : Nat) → (i : Nat) → (now : Nat) → Option (PollExit × List Event)
  | 0, _, _ => none
  | fuel + 1, i, now =>
    if completeBy < now then
      some (PollExit.timedOut, [])
    else
      let call := Event.getAuthToken apiHost verifyTLS code now
      match (polls i).err with
      | some err =>
        if err.Code = 409 then
          (pollLoop apiHost verifyTLS code polls completeBy fuel (i + 1)
              (now + (polls i).latency + 2 * Second)).map
            (fun r => (r.1, call :: Event.sleep (2 * Second) :: r.2))
        else
          some (PollExit.failed err, [call])
      | none => some (PollExit.response (polls i).resp (now + (polls i).latency), [call])

/-- Fuel that is enough for a loop entered at `now` with deadline `completeBy`:
every conflict answer moves the clock by at least two seconds. -/
def pollFuel (completeBy now : Nat) : Nat :=
  (completeBy + 2 * Second - now) / (2 * Second) + 1

/-! ## The login command (login.go lines 38-185) -/

/-- Everything `loginCmd.Run` reads from outside: flags, configuration, the
answers of the prompts and of the remote API, and the clock. -/
structure LoginEnv where
  /-- The value `configuration.LocalConfig(cmd)` returns. -/
  localConfig : ScopedOptions
  /-- The value `configuration.Get(configuration.Scope)` returns at entry. -/
  prevConfig : ScopedOptions
  /-- The global `configuration.Scope` at entry (the requested scope). -/
  Scope : String
  /-- Flag `--yes`. -/
  yes : Bool
  /-- Flag `--overwrite`. -/
  overwrite : Bool
  /-- Flag `--no-copy`. -/
  noCopy : Bool
  /-- The global `utils.Silent`. -/
  Silent : Bool
  hostname : String
  hostOS : String
  hostArch : String
  /-- The function `filepath.Abs`; `none` is a non-nil error. -/
  Abs : String → Option String
  /-- The value `utils.Cwd()` returns. -/
  Cwd : String
  /-- The answer to the prompt "Overwrite existing login:". -/
  confirmOverwrite : Bool
  /-- The string `utils.SelectPrompt` returns. -/
  selection : String
  /-- The pair `http.GenerateAuthCode` returns. -/
  authCodeResp : Option Response
  authCodeErr : Option APIError
  /-- Whether `utils.CopyToClipboard` succeeds; a failure is only logged. -/
  clipboardOk : Bool
  /-- The answer to the prompt "Open the authorization page in your browser?". -/
  confirmOpen : Bool
  /-- Whether `open.Run` succeeds. -/
  browserOk : Bool
  /-- The value of `time.Now()` when the polling loop is entered (line 118). -/
  startTime : Nat
  /-- The behaviour of the successive calls of `http.GetAuthToken`. -/
  polls : Nat → PollEvent
  /-- Whether `http.RevokeAuthToken` succeeds; a failure is only logged. -/
  revokeOk : Bool

/-- How a run of the login command ends.  `failed` and `timedOut` are exits
through `utils.HandleError`, which is not under src and which the spec has end
the command ("all fatal conditions terminate the command with a non-zero
exit"); `denied` is the `os.Exit(1)` after an `error` field, `panicked` a failed
type assertion, `aborted` the early `return`. -/
inductive Outcome where
  | aborted
  | failed
  | timedOut
  | denied
  | panicked
  | completed
  deriving DecidableEq

/-- The result of a run: how it ended, the value of the global
`configuration.Scope` at that point, and the calls made. -/
structure LoginResult where
  outcome : Outcome
  Scope : String
  trace : List Event
  deriving DecidableEq

/-- The result of the scope conflict step. -/
inductive Resolution where
  | Proceed (scope : String)
  | Abort
  deriving DecidableEq

/-- First entry of `options` (line 61). -/
def optionCwd (cwd : String) : String :=
  "Scope login to current directory (" ++ cwd ++ ")"

/-- Second entry of `options` (lines 61 and 66-70). -/
def optionOverwrite (newScope : String) : String :=
  if newScope = "/" then "Overwrite global login (" ++ newScope ++ ")"
  else "Overwrite existing login (" ++ newScope ++ ")"

/-- The prompt of line 56. -/
def overwritePrompt : Event :=
  Event.confirmationPrompt "Overwrite existing login:" false

/-- The prompt of line 75. -/
def scopeSelectPrompt (cwd newScope : String) : Event :=
  Event.selectPrompt "Select an option:" [optionCwd cwd, optionOverwrite newScope]
    (optionCwd cwd)

/-- Lines 46-81: the scope conflict step.  It returns the decision and the
prompts shown. -/
def resolveScope (env : LoginEnv) : Resolution × List Event :=
  if env.prevConfig.Token.Value ≠ "" ∧ env.overwrite = false then
    match env.Abs env.prevConfig.Token.Scope, env.Abs env.Scope with
    | some prevScope, some newScope =>
      if prevScope = newScope then
        if newScope = env.Cwd then
          if env.confirmOverwrite = false then
            (Resolution.Abort, [overwritePrompt])
          else
            (Resolution.Proceed env.Scope, [overwritePrompt])
        else
          if env.selection = optionCwd env.Cwd then
            (Resolution.Proceed env.Cwd, [scopeSelectPrompt env.Cwd newScope])
          else
            (Resolution.Proceed env.Scope, [scopeSelectPrompt env.Cwd newScope])
      else
        (Resolution.Proceed env.Scope, [])
    | _, _ => (Resolution.Proceed env.Scope, [])
  else
    (Resolution.Proceed env.Scope, [])

/-- Lines 172-184: revoke the previous token when its scope is the final scope. -/
def revokePrevious (env : LoginEnv) (scope : String) (verifyTLS : Bool) : List Event :=
  if env.prevConfig.Token.Value ≠ "" then
    match env.Abs env.prevConfig.Token.Scope, env.Abs scope with
    | some prevScope, some newScope =>
      if prevScope = newScope then
        [Event.revokeAuthToken env.prevConfig.APIHost.Value
          (GetBool env.prevConfig.VerifyTLS.Value verifyTLS) env.prevConfig.Token.Value]
      else []
    | _, _ => []
  else []

/-- The option map of lines 156-165. -/
def loginOptions (env : LoginEnv) (verifyTLS : Bool) (token dashboard : String) : Options :=
  [(ConfigOption.ConfigToken, token),
   (ConfigOption.ConfigAPIHost, env.localConfig.APIHost.Value),
   (ConfigOption.ConfigDashboardHost, dashboard)]
  ++ (if verifyTLS = false then [(ConfigOption.ConfigVerifyTLS, env.localConfig.VerifyTLS.Value)]
      else [])

/-- Lines 141-184: what is done with the response the loop was left with. -/
def commit (env : LoginEnv) (scope : String) (verifyTLS : Bool) :
    Option Response → Outcome × List Event
  | none => (Outcome.failed, [])
  | some response =>
    if (response.lookup "error").isSome then
      (Outcome.denied, [])
    else
      match response.lookup "token", response.lookup "name",
          response.lookup "dashboard_url" with
      | some (Value.str token), some (Value.str _), some (Value.str dashboard) =>
        (Outcome.completed,
          Event.configSet scope (loginOptions env verifyTLS token dashboard)
            :: revokePrevious env scope verifyTLS)
      | _, _, _ => (Outcome.panicked, [])

/-- The deadline of line 118. -/
def completeBy (env : LoginEnv) : Nat :=
  env.startTime + 5 * Minute

/-- The value of `verifyTLS` (line 119, and the argument of line 83). -/
def sessionVerifyTLS (env : LoginEnv) : Bool :=
  GetBool env.localConfig.VerifyTLS.Value true

/-- The polling loop as `loginCmd.Run` enters it. -/
def runPolling (env : LoginEnv) (code : String) : Option (PollExit × List Event) :=
  pollLoop env.localConfig.APIHost.Value (sessionVerifyTLS env) code env.polls
    (completeBy env) (pollFuel (completeBy env) env.startTime) 0 env.startTime

/-- Lines 116-184: poll, then handle the exit of the loop.  `none` means the
loop ran out of fuel. -/
def pollAndCommit (env : LoginEnv) (scope code : String) : Option (Outcome × List Event) :=
  match runPolling env code with
  | none => none
  | some (PollExit.timedOut, tr) => some (Outcome.timedOut, tr)
  | some (PollExit.failed _, tr) => some (Outcome.failed, tr)
  | some (PollExit.response resp _, tr) =>
    let r := commit env scope (sessionVerifyTLS env) resp
    some (r.1, tr ++ r.2)

/-- Lines 90-108: clipboard, the browser prompt and the browser launch.  The
boolean tells whether the command goes on. -/
def presentCode (env : LoginEnv) (code authURL : String) : Bool × List Event :=
  let copy := if env.noCopy = false then [Event.copyToClipboard code] else []
  let ask := if env.yes = false ∧ env.Silent = false then
    [Event.confirmationPrompt "Open the authorization page in your browser?" true] else []
  let openBrowser := env.yes || env.Silent || env.confirmOpen
  if openBrowser then
    if env.browserOk = false ∧ env.Silent = true then
      (false, copy ++ ask ++ [Event.openBrowser authURL])
    else
      (true, copy ++ ask ++ [Event.openBrowser authURL])
  else
    (true, copy ++ ask)

/-- The call of line 83. -/
def authCodeCall (env : LoginEnv) : Event :=
  Event.generateAuthCode env.localConfig.APIHost.Value (sessionVerifyTLS env)
    env.hostname env.hostOS env.hostArch

/-- Lines 83-184: the run once the scope is settled. -/
def authorize (env : LoginEnv) (scope : String) : Option (Outcome × List Event) :=
  match env.authCodeErr with
  | some _ => some (Outcome.failed, [authCodeCall env])
  | none =>
    match env.authCodeResp.bind (fun r => r.lookup "code"),
        env.authCodeResp.bind (fun r => r.lookup "auth_url") with
    | some (Value.str code), some (Value.str authURL) =>
      let p := presentCode env code authURL
      if p.1 = false then
        some (Outcome.failed, authCodeCall env :: p.2)
      else
        (pollAndCommit env scope code).map
          (fun r => (r.1, authCodeCall env :: (p.2 ++ r.2)))
    | _, _ => some (Outcome.panicked, [authCodeCall env])

/-- The whole of `loginCmd.Run`.  `none` means the polling loop ran out of
fuel, which `login_total` excludes. -/
def login (env : LoginEnv) : Option LoginResult :=
  match resolveScope env with
  | (Resolution.Abort, tr) => some ⟨Outcome.aborted, env.Scope, tr⟩
  | (Resolution.Proceed scope, tr) =>
    (authorize env scope).map (fun r => ⟨r.1, scope, tr ++ r.2⟩)

/-! ## The configuration store -/

/-- The options stored for one scope (`models.FileScopedOptions`); the empty
string is an option that is not stored. -/
structure FileScopedOptions where
  Token : String
  APIHost : String
  DashboardHost : String
  VerifyTLS : String
  deriving DecidableEq

/-- The scope-keyed store: scope, then the options stored for it. -/
abbrev Store := List (String × FileScopedOptions)

namespace configuration

/-- Modelled from the spec: `configuration.SetConfigValue` is not under src.  It
stores one option of the map handed to `Set` in the record of the scope. -/
def SetConfigValue (conf : FileScopedOptions) (key : ConfigOption) (value : String) :
    FileScopedOptions :=
  match key with
  | ConfigOption.ConfigToken => { conf with Token := value }
  | ConfigOption.ConfigAPIHost => { conf with APIHost := value }
  | ConfigOption.ConfigDashboardHost => { conf with DashboardHost := value }
  | ConfigOption.ConfigVerifyTLS => { conf with VerifyTLS := value }

/-- Modelled from the spec: `configuration.Set` is not under src.  The spec has
`Set(scope, record)` insert or overwrite the entry for `scope`; the source
hands it a map of options, and the spec has a roll replace the token "in the
entries' records", so the options of the map are overwritten in the entry of
`scope`, which is inserted when absent.  No other entry changes. -/
def Set (store : Store) (scope : String) (options : Options) : Store :=
  let config := options.foldl (fun c kv => SetConfigValue c kv.1 kv.2)
    ((store.lookup scope).getD ⟨"", "", "", ""⟩)
  if store.any (fun e => e.1 == scope) then
    store.map (fun e => if e.1 = scope then (scope, config) else e)
  else
    store ++ [(scope, config)]

/-- Modelled from the spec: `configuration.AllConfigs` is not under src.  The
spec has `All()` give every `(scope, record)` of the store. -/
def AllConfigs (store : Store) : List (String × FileScopedOptions) :=
  store

end configuration

/-- The effect of one call on the store: only `configuration.Set` writes. -/
def applyEvent (store : Store) : Event → Store
  | Event.configSet scope options => configuration.Set store scope options
  | _ => store

/-- The store after the calls of a trace, in order. -/
def finalStore (store : Store) (trace : List Event) : Store :=
  trace.foldl applyEvent store

/-! ## The roll command (login.go lines 196-221) -/

/-- Everything `loginRollCmd.Run` reads from outside. -/
structure RollEnv where
  /-- The value `configuration.LocalConfig(cmd)` returns. -/
  localConfig : ScopedOptions
  /-- Flag `--no-update-config`. -/
  noUpdateConfig : Bool
  /-- The pair `http.RollAuthToken` returns. -/
  rollResp : Option Response
  rollErr : Option APIError

/-- How a run of the roll command ends: `failed` is an exit through
`utils.RequireValue` or `utils.HandleError`, `panicked` a failed type
assertion. -/
inductive RollOutcome where
  | failed
  | panicked
  | rolled
  deriving DecidableEq

/-- Lines 213-217: the loop over `configuration.AllConfigs()`. -/
def rollUpdates (oldToken newToken : String) :
    List (String × FileScopedOptions) → List Event
  | [] => []
  | (scope, config) :: rest =>
    if config.Token = oldToken then
      Event.configSet scope [(ConfigOption.ConfigToken, newToken)]
        :: rollUpdates oldToken newToken rest
    else
      rollUpdates oldToken newToken rest

/-- The whole of `loginRollCmd.Run`, run on a store. -/
def loginRoll (env : RollEnv) (store : Store) : RollOutcome × List Event :=
  if env.localConfig.Token.Value = "" then
    (RollOutcome.failed, [])
  else
    let oldToken := env.localConfig.Token.Value
    let call := Event.rollAuthToken env.localConfig.APIHost.Value
      (GetBool env.localConfig.VerifyTLS.Value true) oldToken
    match env.rollErr with
    | some _ => (RollOutcome.failed, [call])
    | none =>
      match env.rollResp.bind (fun r => r.lookup "token") with
      | some (Value.str newToken) =>
        (RollOutcome.rolled,
          call :: (if env.noUpdateConfig = false then
            rollUpdates oldToken newToken (configuration.AllConfigs store) else []))
      | _ => (RollOutcome.panicked, [call])

/-- The record of a store entry after a roll from `oldToken` to `newToken`. -/
def rolledEntry (oldToken newToken : String) (e : String × FileScopedOptions) :
    String × FileScopedOptions :=
  if e.2.Token = oldToken then (e.1, { e.2 with Token := newToken }) else e

/-! ## Concrete runs -/

/-- An absolute-path function for the examples: the paths used are absolute. -/
def absId (p : String) : Option String := some p

/-- A `GetAuthToken` call that takes one second and answers with a conflict. -/
def conflictPoll : PollEvent :=
  ⟨Second, none, some ⟨409, "conflict"⟩⟩

/-- A `GetAuthToken` call that takes `latency` and answers with a token. -/
def successPoll (latency : Nat) (token name : String) : PollEvent :=
  ⟨latency, some [("token", Value.str token), ("name", Value.str name),
    ("dashboard_url", Value.str "https://dashboard.doppler.com")], none⟩

/-- An empty resolved configuration. -/
def noConfig : ScopedOptions :=
  ⟨⟨"", ""⟩, ⟨"", ""⟩, ⟨"", ""⟩⟩

/-- A run of `login` with the default API host, an issued code, and no
previous login: the fields are overridden by the examples. -/
def baseEnv : LoginEnv where
  localConfig := ⟨⟨"", ""⟩, ⟨"https://api.doppler.com", "/"⟩, ⟨"", ""⟩⟩
  prevConfig := noConfig
  Scope := "/"
  yes := true
  overwrite := false
  noCopy := true
  Silent := false
  hostname := "host"
  hostOS := "linux"
  hostArch := "amd64"
  Abs := absId
  Cwd := "/"
  confirmOverwrite := false
  selection := ""
  authCodeResp := some [("code", Value.str "c0de"), ("auth_url", Value.str "https://auth")]
  authCodeErr := none
  clipboardOk := true
  confirmOpen := true
  browserOk := true
  startTime := 0
  polls := fun _ => conflictPoll
  revokeOk := true

/-- The clock at the deadline check reached after `k` conflict answers in a
row, starting from a check at `now` before call `i`. -/
def clockAfter (polls : Nat → PollEvent) : (k : Nat) → (i : Nat) → (now : Nat) → Nat
  | 0, _, now => now
  | k + 1, i, now => clockAfter polls k (i + 1) (now + (polls i).latency + 2 * Second)

/-- The calls of `k` rounds of "poll, conflict answer, wait two seconds",
starting from a check at `now` before call `i`. -/
def conflictRounds (apiHost : String) (verifyTLS : Bool) (code : String)
    (polls : Nat → PollEvent) : (k : Nat) → (i : Nat) → (now : Nat) → List Event
  | 0, _, _ => []
  | k + 1, i, now =>
    Event.getAuthToken apiHost verifyTLS code now :: Event.sleep (2 * Second)
      :: conflictRounds apiHost verifyTLS code polls k (i + 1)
          (now + (polls i).latency + 2 * Second)

/-- A first login: empty store, requested scope `/project`, the first poll
answers with the token `tok_123` of `Alice`. -/
def freshEnv : LoginEnv :=
  { baseEnv with
    Scope := "/project"
    polls := fun _ => successPoll Second "tok_123" "Alice" }

/-- The run of `freshEnv`. -/
def freshRun : LoginResult :=
  ⟨Outcome.completed, "/project",
    [Event.generateAuthCode "https://api.doppler.com" true "host" "linux" "amd64",
     Event.openBrowser "https://auth",
     Event.getAuthToken "https://api.doppler.com" true "c0de" 0,
     Event.configSet "/project"
       [(ConfigOption.ConfigToken, "tok_123"),
        (ConfigOption.ConfigAPIHost, "https://api.doppler.com"),
        (ConfigOption.ConfigDashboardHost, "https://dashboard.doppler.com")]]⟩

/-- The resolved configuration of a store that holds the token `old` at `/`,
written by a login with the default TLS setting (no stored TLS flag). -/
def oldConfig : ScopedOptions :=
  ⟨⟨"old", "/"⟩, ⟨"https://api.old.example", "/"⟩, ⟨"", ""⟩⟩

/-- The store `{/: old}`. -/
def oldStore : Store :=
  [("/", ⟨"old", "https://api.old.example", "https://dashboard.old.example", ""⟩)]

/-- The command `login --scope /` run in `/` on the store `{/: old}`: the user
confirms the overwrite and the first poll answers with the token `new`. -/
def reloginEnv : LoginEnv :=
  { baseEnv with
    prevConfig := oldConfig
    confirmOverwrite := true
    polls := fun _ => successPoll Second "new" "Alice" }

/-- The run of `reloginEnv`. -/
def reloginRun : LoginResult :=
  ⟨Outcome.completed, "/",
    [overwritePrompt,
     Event.generateAuthCode "https://api.doppler.com" true "host" "linux" "amd64",
     Event.openBrowser "https://auth",
     Event.getAuthToken "https://api.doppler.com" true "c0de" 0,
     Event.configSet "/"
       [(ConfigOption.ConfigToken, "new"),
        (ConfigOption.ConfigAPIHost, "https://api.doppler.com"),
        (ConfigOption.ConfigDashboardHost, "https://dashboard.doppler.com")],
     Event.revokeAuthToken "https://api.old.example" true "old"]⟩

/-- The same command as `reloginEnv`, the user declining the overwrite. -/
def declineEnv : LoginEnv :=
  { reloginEnv with confirmOverwrite := false }

/-- The command `login` (scope `/`) run in `/project` on the store `{/: old}`:
the user picks the first option of the choice. -/
def narrowEnv : LoginEnv :=
  { reloginEnv with
    Cwd := "/project"
    selection := optionCwd "/project" }

/-- The same command as `reloginEnv` with TLS verification switched off for the
new session (`localConfig.VerifyTLS.Value` is `false`). -/
def insecureEnv : LoginEnv :=
  { reloginEnv with
    localConfig := ⟨⟨"", ""⟩, ⟨"https://api.doppler.com", "/"⟩, ⟨"false", "/"⟩⟩ }

/-- A store with the token `T` at `/a` and at `/b` and the token `U` at `/c`. -/
def sharedStore : Store :=
  [("/a", ⟨"T", "https://api.doppler.com", "https://dashboard.doppler.com", ""⟩),
   ("/b", ⟨"T", "https://api.doppler.com", "https://dashboard.doppler.com", "false"⟩),
   ("/c", ⟨"U", "https://api.doppler.com", "https://dashboard.doppler.com", ""⟩)]

/-- The command `login roll --scope /a` on `sharedStore`: the current token is
`T` and the remote side answers with the new token `T2`. -/
def rollEnv : RollEnv where
  localConfig := ⟨⟨"T", "/a"⟩, ⟨"https://api.doppler.com", "/a"⟩, ⟨"", ""⟩⟩
  noUpdateConfig := false
  rollResp := some [("token", Value.str "T2")]
  rollErr := none

/-- Two conflict answers, then a success: each call takes one second. -/
def retryPolls : Nat → PollEvent :=
  fun i => if i < 2 then conflictPoll else successPoll Second "tok" "Alice"

/-- How the loop is left on `retryPolls`: with the answer of the third call,
received after seven seconds. -/
def retryExit : PollExit :=
  PollExit.response (successPoll Second "tok" "Alice").resp (7 * Second)

/-- The calls of the loop on `retryPolls`. -/
def retryTrace : List Event :=
  [Event.getAuthToken "https://api.doppler.com" true "c0de" 0,
   Event.sleep (2 * Second),
   Event.getAuthToken "https://api.doppler.com" true "c0de" (3 * Second),
   Event.sleep (2 * Second),
   Event.getAuthToken "https://api.doppler.com" true "c0de" (6 * Second)]

/-- A run in which the only answer of `GetAuthToken`, a success, takes one
nanosecond more than five minutes: the call is made at the deadline check of
time 0 and returns after the deadline. -/
def lateEnv : LoginEnv :=
  { baseEnv with polls := fun _ => successPoll (5 * Minute + 1) "tok_late" "Alice" }

end Doppler

namespace Doppler

/-! ## The polling loop: termination and shape of the runs -/

/-- With the fuel `pollFuel` the loop returns: each conflict answer moves the
clock two seconds closer to the deadline. -/
theorem pollLoop_fuel (apiHost : String) (verifyTLS : Bool) (code : String)
    (polls : Nat → PollEvent) (cb : Nat) :
    ∀ (fuel i now : Nat), pollFuel cb now ≤ fuel →
      (pollLoop apiHost verifyTLS code polls cb fuel i now).isSome = true := by
  intro fuel
  induction fuel with
  | zero =>
    intro i now h
    simp [pollFuel] at h
  | succ f ih =>
    intro i now h
    unfold pollLoop
    by_cases hlt : cb < now
    · simp [hlt]
    · simp only [hlt, if_false]
      cases herr : (polls i).err with
      | none => simp
      | some e =>
        by_cases h409 : e.Code = 409
        · simp only [h409, if_true, Option.isSome_map']
          apply ih
          simp only [pollFuel, Second] at h ⊢
          omega
        · simp [h409]

/-- Claim C1 fails on the code at `lateEnv`.  The loop is entered at time 0, so
the deadline `completeBy` is five minutes.  The only poll is sent at time 0 and
its success answer arrives one nanosecond after the deadline.  The claim, like
the comment of line 116 ("auth flow must complete within 5 minutes"), has this
session end timed out; the code leaves the loop with the late answer, the run
ends completed and the token of the late answer is written to the store. -/
theorem late_response_completes :
    completeBy lateEnv = 5 * Minute
      ∧ runPolling lateEnv "c0de"
        = some (PollExit.response (successPoll (5 * Minute + 1) "tok_late" "Alice").resp
            (5 * Minute + 1),
          [Event.getAuthToken "https://api.doppler.com" true "c0de" 0])
      ∧ completeBy lateEnv < 5 * Minute + 1
      ∧ (login lateEnv).map (fun r => r.outcome) = some Outcome.completed
      ∧ (login lateEnv).map (fun r => r.outcome) ≠ some Outcome.timedOut
      ∧ (login lateEnv).map (fun r => finalStore [] r.trace)
        = some [("/", ⟨"tok_late", "https://api.doppler.com",
            "https://dashboard.doppler.com", ""⟩)] := by
  decide

/-- Where the loop does look at the clock: from any state of the loop, every
`GetAuthToken` call of the run is sent at a time that does not exceed the
deadline, and when the clock exceeds the deadline at a deadline check the loop
is left timed out with no call at all.  The clock is not read between a call
and the handling of its answer. -/
theorem polls_sent_by_deadline (apiHost : String) (verifyTLS : Bool) (code : String)
    (polls : Nat → PollEvent) (cb : Nat) :
    ∀ (fuel i now : Nat) (x : PollExit) (tr : List Event),
      pollLoop apiHost verifyTLS code polls cb fuel i now = some (x, tr) →
      (∀ a v c t, Event.getAuthToken a v c t ∈ tr → t ≤ cb)
        ∧ (cb < now → x = PollExit.timedOut ∧ tr = []) := by
  intro fuel
  induction fuel with
  | zero =>
    intro i now x tr h
    simp [pollLoop] at h
  | succ f ih =>
    intro i now x tr h
    unfold pollLoop at h
    by_cases hlt : cb < now
    · simp only [hlt, if_true, Option.some.injEq, Prod.mk.injEq] at h
      obtain ⟨hx, htr⟩ := h
      subst hx
      subst htr
      simp
    · simp only [hlt, if_false] at h
      have hle : now ≤ cb := Nat.le_of_not_lt hlt
      refine ⟨?_, fun h' => absurd h' hlt⟩
      cases herr : (polls i).err with
      | none =>
        simp only [herr, Option.some.injEq, Prod.mk.injEq] at h
        obtain ⟨_, htr⟩ := h
        subst htr
        intro a v c t ht
        simp only [List.mem_singleton, Event.getAuthToken.injEq] at ht
        omega
      | some e =>
        simp only [herr] at h
        by_cases h409 : e.Code = 409
        · simp only [h409, if_true, Option.map_eq_some', Prod.mk.injEq] at h
          obtain ⟨⟨x', tr'⟩, hrec, _, htr⟩ := h
          have hin := (ih _ _ _ _ hrec).1
          subst htr
          intro a v c t ht
          simp only [List.mem_cons, Event.getAuthToken.injEq, reduceCtorEq, false_or] at ht
          rcases ht with ht | ht
          · omega
          · exact hin a v c t ht
        · simp only [h409, if_false, Option.some.injEq, Prod.mk.injEq] at h
          obtain ⟨_, htr⟩ := h
          subst htr
          intro a v c t ht
          simp only [List.mem_singleton, Event.getAuthToken.injEq] at ht
          omega

/-- Claim C8.  Every run of the loop consists of some number `k` of rounds
"poll, conflict (409) answer, one wait of two seconds", each followed by a
return to the deadline check, and is then left in one of three ways only: the
check finds the clock past the deadline (timed out, no further call), or one
more poll with the same code gets an error that is not a conflict (failed), or
one more poll gets a response.  A conflict answer never ends the run. -/
theorem conflict_answer_retries (apiHost : String) (verifyTLS : Bool) (code : String)
    (polls : Nat → PollEvent) (cb : Nat) :
    ∀ (fuel i now : Nat) (x : PollExit) (tr : List Event),
      pollLoop apiHost verifyTLS code polls cb fuel i now = some (x, tr) →
      ∃ k : Nat,
        (∀ j, j < k → ∃ e, (polls (i + j)).err = some e ∧ e.Code = 409
            ∧ clockAfter polls j i now ≤ cb)
        ∧ ((x = PollExit.timedOut ∧ cb < clockAfter polls k i now
              ∧ tr = conflictRounds apiHost verifyTLS code polls k i now)
          ∨ (∃ e, (polls (i + k)).err = some e ∧ e.Code ≠ 409
              ∧ clockAfter polls k i now ≤ cb ∧ x = PollExit.failed e
              ∧ tr = conflictRounds apiHost verifyTLS code polls k i now
                  ++ [Event.getAuthToken apiHost verifyTLS code (clockAfter polls k i now)])
          ∨ ((polls (i + k)).err = none ∧ clockAfter polls k i now ≤ cb
              ∧ x = PollExit.response (polls (i + k)).resp
                  (clockAfter polls k i now + (polls (i + k)).latency)
              ∧ tr = conflictRounds apiHost verifyTLS code polls k i now
                  ++ [Event.getAuthToken apiHost verifyTLS code
                        (clockAfter polls k i now)])) := by
  intro fuel
  induction fuel with
  | zero =>
    intro i now x tr h
    simp [pollLoop] at h
  | succ f ih =>
    intro i now x tr h
    unfold pollLoop at h
    by_cases hlt : cb < now
    · simp only [hlt, if_true, Option.some.injEq, Prod.mk.injEq] at h
      obtain ⟨hx, htr⟩ := h
      refine ⟨0, fun j hj => absurd hj (Nat.not_lt_zero j), Or.inl ?_⟩
      simp [clockAfter, conflictRounds, hlt, ← hx, ← htr]
    · simp only [hlt, if_false] at h
      have hle : now ≤ cb := Nat.le_of_not_lt hlt
      cases herr : (polls i).err with
      | none =>
        simp only [herr, Option.some.injEq, Prod.mk.injEq] at h
        obtain ⟨hx, htr⟩ := h
        refine ⟨0, fun j hj => absurd hj (Nat.not_lt_zero j), Or.inr (Or.inr ?_)⟩
        simp [clockAfter, conflictRounds, hle, herr, ← hx, ← htr]
      | some e =>
        simp only [herr] at h
        by_cases h409 : e.Code = 409
        · simp only [h409, if_true, Option.map_eq_some', Prod.mk.injEq] at h
          obtain ⟨⟨x', tr'⟩, hrec, hx, htr⟩ := h
          simp only at hx htr
          obtain ⟨k, hk, hend⟩ := ih _ _ _ _ hrec
          refine ⟨k + 1, ?_, ?_⟩
          · intro j hj
            cases j with
            | zero => exact ⟨e, by simpa using herr, h409, by simpa [clockAfter] using hle⟩
            | succ j =>
              obtain ⟨e', he', hc', ht'⟩ := hk j (by omega)
              refine ⟨e', ?_, hc', ?_⟩
              · rw [← he']
                congr 2
                omega
              · simpa [clockAfter] using ht'
          · have hidx : i + (k + 1) = i + 1 + k := by omega
            rw [hidx]
            simp only [clockAfter, conflictRounds, List.cons_append]
            rcases hend with ⟨h1, h2, h3⟩ | ⟨e', h1, h2, h3, h4, h5⟩ | ⟨h1, h2, h3, h4⟩
            · exact Or.inl ⟨hx ▸ h1, h2, by rw [← htr, h3]⟩
            · exact Or.inr (Or.inl ⟨e', h1, h2, h3, hx ▸ h4, by rw [← htr, h5]⟩)
            · exact Or.inr (Or.inr ⟨h1, h2, hx ▸ h3, by rw [← htr, h4]⟩)
        · simp only [h409, if_false, Option.some.injEq, Prod.mk.injEq] at h
          obtain ⟨hx, htr⟩ := h
          refine ⟨0, fun j hj => absurd hj (Nat.not_lt_zero j), Or.inr (Or.inl ?_)⟩
          exact ⟨e, by simpa using herr, h409, by simpa [clockAfter] using hle, hx.symm,
            by simp [clockAfter, conflictRounds, ← htr]⟩

/-! ## The login command: shape of the runs -/

/-- The calls of the polling loop are polls and waits. -/
theorem pollLoop_events (apiHost : String) (verifyTLS : Bool) (code : String)
    (polls : Nat → PollEvent) (cb : Nat) :
    ∀ (fuel i now : Nat) (x : PollExit) (tr : List Event),
      pollLoop apiHost verifyTLS code polls cb fuel i now = some (x, tr) →
      ∀ e ∈ tr, e.isConfigSet = false ∧ e.isRevoke = false := by
  intro fuel
  induction fuel with
  | zero =>
    intro i now x tr h
    simp [pollLoop] at h
  | succ f ih =>
    intro i now x tr h e he
    unfold pollLoop at h
    split at h
    · simp only [Option.some.injEq, Prod.mk.injEq] at h
      rw [← h.2] at he
      simp at he
    · split at h
      · split at h
        · simp only [Option.map_eq_some', Prod.mk.injEq] at h
          obtain ⟨⟨x', tr'⟩, hrec, _, htr⟩ := h
          rw [← htr] at he
          simp only [List.mem_cons] at he
          rcases he with he | he | he
          · subst he; exact ⟨rfl, rfl⟩
          · subst he; exact ⟨rfl, rfl⟩
          · exact ih _ _ _ _ hrec e he
        · simp only [Option.some.injEq, Prod.mk.injEq] at h
          rw [← h.2, List.mem_singleton] at he
          subst he; exact ⟨rfl, rfl⟩
      · simp only [Option.some.injEq, Prod.mk.injEq] at h
        rw [← h.2, List.mem_singleton] at he
        subst he; exact ⟨rfl, rfl⟩

/-- The scope conflict step only shows prompts. -/
theorem resolveScope_events (env : LoginEnv) :
    ∀ e ∈ (resolveScope env).2,
      e.isConfigSet = false ∧ e.isRevoke = false ∧ e.isRemote = false := by
  intro e he
  unfold resolveScope at he
  split at he
  · split at he
    · split at he
      · split at he
        · split at he <;>
            (simp only [List.mem_singleton] at he; subst he; exact ⟨rfl, rfl, rfl⟩)
        · split at he <;>
            (simp only [List.mem_singleton] at he; subst he; exact ⟨rfl, rfl, rfl⟩)
      · simp at he
    · simp at he
  · simp at he

/-- Presenting the code neither writes the store nor revokes a token. -/
theorem presentCode_events (env : LoginEnv) (code authURL : String) :
    ∀ e ∈ (presentCode env code authURL).2, e.isConfigSet = false ∧ e.isRevoke = false := by
  intro e he
  have hparts : ∀ e,
      e ∈ (if env.noCopy = false then [Event.copyToClipboard code] else [])
        ++ (if env.yes = false ∧ env.Silent = false then
            [Event.confirmationPrompt "Open the authorization page in your browser?" true]
            else [])
        ++ [Event.openBrowser authURL] →
      e.isConfigSet = false ∧ e.isRevoke = false := by
    intro e he
    simp only [List.mem_append, List.mem_singleton] at he
    rcases he with (he | he) | he
    · split at he
      · simp only [List.mem_singleton] at he; subst he; exact ⟨rfl, rfl⟩
      · simp at he
    · split at he
      · simp only [List.mem_singleton] at he; subst he; exact ⟨rfl, rfl⟩
      · simp at he
    · subst he; exact ⟨rfl, rfl⟩
  unfold presentCode at he
  simp only at he
  split at he
  · split at he <;> exact hparts e he
  · apply hparts e
    simp only [List.mem_append] at he ⊢
    exact Or.inl he

/-- What `commit` does: either the run does not complete and nothing is called,
or the response has no `error` field, its `token`, `name` and `dashboard_url`
are strings, and the store write is followed by the revocation step. -/
theorem commit_shape (env : LoginEnv) (scope : String) (verifyTLS : Bool)
    (resp : Option Response) :
    ((commit env scope verifyTLS resp).1 ≠ Outcome.completed
        ∧ (commit env scope verifyTLS resp).2 = [])
      ∨ ((commit env scope verifyTLS resp).1 = Outcome.completed
        ∧ ∃ r token name dashboard, resp = some r
          ∧ r.lookup "error" = none
          ∧ r.lookup "token" = some (Value.str token)
          ∧ r.lookup "name" = some (Value.str name)
          ∧ r.lookup "dashboard_url" = some (Value.str dashboard)
          ∧ (commit env scope verifyTLS resp).2
            = Event.configSet scope (loginOptions env verifyTLS token dashboard)
                :: revokePrevious env scope verifyTLS) := by
  cases resp with
  | none => left; simp [commit]
  | some r =>
    cases hE : r.lookup "error" with
    | some v => left; simp [commit, hE]
    | none =>
      cases ht : r.lookup "token" with
      | none => left; simp [commit, hE, ht]
      | some vt =>
        cases vt with
        | other => left; simp [commit, hE, ht]
        | str token =>
          cases hn : r.lookup "name" with
          | none => left; simp [commit, hE, ht, hn]
          | some vn =>
            cases vn with
            | other => left; simp [commit, hE, ht, hn]
            | str name =>
              cases hd : r.lookup "dashboard_url" with
              | none => left; simp [commit, hE, ht, hn, hd]
              | some vd =>
                cases vd with
                | other => left; simp [commit, hE, ht, hn, hd]
                | str dashboard =>
                  right
                  exact ⟨by simp [commit, hE, ht, hn, hd], r, token, name, dashboard, rfl,
                    hE, ht, hn, hd, by simp [commit, hE, ht, hn, hd]⟩

/-- What a run of `login` looks like: calls that neither write the store nor
revoke a token, followed, only when the run completes, by one store write at
the final scope and the revocation step.  The write is built from the response
the polling loop was left with. -/
theorem login_shape (env : LoginEnv) (r : LoginResult) (h : login env = some r) :
    ∃ pre post, r.trace = pre ++ post
      ∧ (∀ e ∈ pre, e.isConfigSet = false ∧ e.isRevoke = false)
      ∧ ((r.outcome ≠ Outcome.completed ∧ post = [])
        ∨ (r.outcome = Outcome.completed
          ∧ ∃ code resp receivedAt tr token name dashboard,
            runPolling env code = some (PollExit.response (some resp) receivedAt, tr)
            ∧ resp.lookup "error" = none
            ∧ resp.lookup "token" = some (Value.str token)
            ∧ resp.lookup "name" = some (Value.str name)
            ∧ resp.lookup "dashboard_url" = some (Value.str dashboard)
            ∧ post = Event.configSet r.Scope
                  (loginOptions env (sessionVerifyTLS env) token dashboard)
                :: revokePrevious env r.Scope (sessionVerifyTLS env))) := by
  unfold login at h
  have hres := resolveScope_events env
  rcases hrs : resolveScope env with ⟨res, tr0⟩
  rw [hrs] at h hres
  simp only at hres
  have hpre0 : ∀ e ∈ tr0, e.isConfigSet = false ∧ e.isRevoke = false :=
    fun e he => ⟨(hres e he).1, (hres e he).2.1⟩
  cases res with
  | Abort =>
    simp only [Option.some.injEq] at h
    subst h
    exact ⟨tr0, [], by simp, hpre0, Or.inl ⟨by simp, rfl⟩⟩
  | Proceed scope =>
    simp only [Option.map_eq_some'] at h
    obtain ⟨⟨o, tr1⟩, hauth, hr⟩ := h
    subst hr
    simp only
    unfold authorize at hauth
    cases hae : env.authCodeErr with
    | some err =>
      simp only [hae, Option.some.injEq, Prod.mk.injEq] at hauth
      obtain ⟨ho, htr⟩ := hauth
      subst ho htr
      refine ⟨tr0 ++ [authCodeCall env], [], by simp, ?_, Or.inl ⟨by simp, rfl⟩⟩
      intro e he
      simp only [List.mem_append, List.mem_singleton] at he
      rcases he with he | he
      · exact hpre0 e he
      · subst he; exact ⟨rfl, rfl⟩
    | none =>
      simp only [hae] at hauth
      split at hauth
      · rename_i code authURL hcode hurl
        have hpc := presentCode_events env code authURL
        by_cases hp : (presentCode env code authURL).1 = false
        · rw [if_pos hp] at hauth
          simp only [Option.some.injEq, Prod.mk.injEq] at hauth
          obtain ⟨ho, htr⟩ := hauth
          subst ho htr
          refine ⟨tr0 ++ authCodeCall env :: (presentCode env code authURL).2, [], by simp,
            ?_, Or.inl ⟨by simp, rfl⟩⟩
          intro e he
          simp only [List.mem_append, List.mem_cons] at he
          rcases he with he | he | he
          · exact hpre0 e he
          · subst he; exact ⟨rfl, rfl⟩
          · exact hpc e he
        · rw [if_neg hp] at hauth
          simp only [Option.map_eq_some', Prod.mk.injEq] at hauth
          obtain ⟨⟨o2, tr2⟩, hpac, ho, htr⟩ := hauth
          simp only at ho htr
          subst ho htr
          have hhead : ∀ e ∈ tr0 ++ authCodeCall env :: (presentCode env code authURL).2,
              e.isConfigSet = false ∧ e.isRevoke = false := by
            intro e he
            simp only [List.mem_append, List.mem_cons] at he
            rcases he with he | he | he
            · exact hpre0 e he
            · subst he; exact ⟨rfl, rfl⟩
            · exact hpc e he
          unfold pollAndCommit at hpac
          cases hrp : runPolling env code with
          | none => simp [hrp] at hpac
          | some xt =>
            obtain ⟨x, tr3⟩ := xt
            have hloop := pollLoop_events _ _ _ _ _ _ _ _ x tr3 hrp
            have hhead3 : ∀ e ∈ tr0 ++ authCodeCall env
                :: ((presentCode env code authURL).2 ++ tr3),
                e.isConfigSet = false ∧ e.isRevoke = false := by
              intro e he
              simp only [List.mem_append, List.mem_cons] at he
              rcases he with he | he | he | he
              · exact hpre0 e he
              · subst he; exact ⟨rfl, rfl⟩
              · exact hpc e he
              · exact hloop e he
            cases x with
            | timedOut =>
              simp only [hrp, Option.some.injEq, Prod.mk.injEq] at hpac
              obtain ⟨ho, htr⟩ := hpac
              subst ho htr
              exact ⟨_, [], by simp, hhead3, Or.inl ⟨by simp, rfl⟩⟩
            | failed err =>
              simp only [hrp, Option.some.injEq, Prod.mk.injEq] at hpac
              obtain ⟨ho, htr⟩ := hpac
              subst ho htr
              exact ⟨_, [], by simp, hhead3, Or.inl ⟨by simp, rfl⟩⟩
            | response resp receivedAt =>
              simp only [hrp, Option.some.injEq, Prod.mk.injEq] at hpac
              obtain ⟨ho, htr⟩ := hpac
              subst ho htr
              refine ⟨tr0 ++ authCodeCall env :: ((presentCode env code authURL).2 ++ tr3),
                (commit env scope (sessionVerifyTLS env) resp).2, by simp, hhead3, ?_⟩
              rcases commit_shape env scope (sessionVerifyTLS env) resp with
                ⟨h1, h2⟩ | ⟨h1, rr, token, name, dashboard, hresp, hE, ht, hn, hd, hpost⟩
              · exact Or.inl ⟨h1, h2⟩
              · subst hresp
                exact Or.inr ⟨h1, code, rr, receivedAt, tr3, token, name, dashboard, hrp,
                  hE, ht, hn, hd, hpost⟩
      · simp only [Option.some.injEq, Prod.mk.injEq] at hauth
        obtain ⟨ho, htr⟩ := hauth
        subst ho htr
        refine ⟨tr0 ++ [authCodeCall env], [], by simp, ?_, Or.inl ⟨by simp, rfl⟩⟩
        intro e he
        simp only [List.mem_append, List.mem_singleton] at he
        rcases he with he | he
        · exact hpre0 e he
        · subst he; exact ⟨rfl, rfl⟩

/-- Every run of `login` returns: the polling loop has enough fuel. -/
theorem login_total (env : LoginEnv) : (login env).isSome = true := by
  have hfuel : ∀ code, (runPolling env code).isSome = true := fun code =>
    pollLoop_fuel _ _ _ _ _ _ _ _ (Nat.le_refl _)
  have hpac : ∀ scope code, (pollAndCommit env scope code).isSome = true := by
    intro scope code
    unfold pollAndCommit
    have := hfuel code
    cases hrp : runPolling env code with
    | none => simp [hrp] at this
    | some xt =>
      obtain ⟨x, tr⟩ := xt
      cases x <;> simp
  have hauth : ∀ scope, (authorize env scope).isSome = true := by
    intro scope
    unfold authorize
    split
    · simp
    · split
      · dsimp only
        split
        · simp
        · simp [hpac]
      · simp
  unfold login
  split
  · simp
  · simp [hauth]

/-- A trace without store writes leaves the store as it is. -/
theorem finalStore_of_no_write (store : Store) (tr : List Event)
    (h : ∀ e ∈ tr, e.isConfigSet = false) : finalStore store tr = store := by
  induction tr generalizing store with
  | nil => rfl
  | cons e tr ih =>
    have he : applyEvent store e = store := by
      have := h e (List.mem_cons_self e tr)
      cases e <;> simp_all [applyEvent, Event.isConfigSet]
    simp only [finalStore, List.foldl_cons, he]
    exact ih store (fun e' he' => h e' (List.mem_cons_of_mem e he'))

/-- The revocation step makes at most one call, a revocation. -/
theorem revokePrevious_events (env : LoginEnv) (scope : String) (verifyTLS : Bool) :
    (revokePrevious env scope verifyTLS).filter Event.isConfigSet = []
      ∧ (revokePrevious env scope verifyTLS).filter Event.isRevoke
        = revokePrevious env scope verifyTLS := by
  unfold revokePrevious
  split
  · split
    · split <;> simp [Event.isConfigSet, Event.isRevoke]
    · simp
  · simp

/-- The two options of the choice are different strings. -/
theorem optionCwd_ne_optionOverwrite (cwd newScope : String) :
    optionCwd cwd ≠ optionOverwrite newScope := by
  intro h
  have h2 := congrArg (fun s => s.data.head?) h
  unfold optionCwd optionOverwrite at h2
  split at h2 <;> simp [String.data_append] at h2

/-- Once the scope is settled the run no longer aborts: the only `return` of
the command is in the scope conflict step. -/
theorem authorize_not_aborted (env : LoginEnv) (scope : String) (o : Outcome)
    (tr : List Event) (hauth : authorize env scope = some (o, tr)) :
    o ≠ Outcome.aborted := by
  intro ho
  subst ho
  unfold authorize at hauth
  split at hauth
  · simp at hauth
  · split at hauth
    · dsimp only at hauth
      split at hauth
      · simp at hauth
      · simp only [Option.map_eq_some', Prod.mk.injEq] at hauth
        obtain ⟨⟨o2, tr2⟩, hpac, ho2, _⟩ := hauth
        simp only at ho2
        subst ho2
        unfold pollAndCommit at hpac
        split at hpac
        · simp at hpac
        · simp at hpac
        · simp at hpac
        · simp only [Option.some.injEq, Prod.mk.injEq] at hpac
          obtain ⟨ho3, _⟩ := hpac
          unfold commit at ho3
          split at ho3
          · simp at ho3
          · split at ho3
            · simp at ho3
            · split at ho3 <;> simp at ho3
    · simp at hauth

/-- A run whose scope conflict step proceeds with `scope` does not abort and
ends with `scope` as its scope. -/
theorem login_of_proceed (env : LoginEnv) (scope : String) (tr0 : List Event)
    (hres : resolveScope env = (Resolution.Proceed scope, tr0)) :
    ∀ r, login env = some r → r.outcome ≠ Outcome.aborted ∧ r.Scope = scope := by
  intro r hr
  unfold login at hr
  rw [hres] at hr
  simp only [Option.map_eq_some'] at hr
  obtain ⟨⟨o, tr⟩, hauth, hr⟩ := hr
  subst hr
  exact ⟨authorize_not_aborted env scope o tr hauth, rfl⟩

/-- A run whose scope conflict step proceeds starts with the prompts of that
step. -/
theorem login_trace_of_proceed (env : LoginEnv) (scope : String) (tr0 : List Event)
    (hres : resolveScope env = (Resolution.Proceed scope, tr0)) :
    ∀ r, login env = some r → ∃ rest, r.trace = tr0 ++ rest := by
  intro r hr
  unfold login at hr
  rw [hres] at hr
  simp only [Option.map_eq_some'] at hr
  obtain ⟨⟨o, tr⟩, _, hr⟩ := hr
  subst hr
  exact ⟨tr, rfl⟩

/-! ## Scope conflict resolution -/

/-- Claim C5.  When the previous token value is empty or the overwrite flag is
set, the scope conflict step proceeds with the requested scope and shows no
prompt, whatever the other inputs are; the run does not abort and its final
scope is the requested scope. -/
theorem no_conflict_proceeds (env : LoginEnv)
    (h : env.prevConfig.Token.Value = "" ∨ env.overwrite = true) :
    resolveScope env = (Resolution.Proceed env.Scope, [])
      ∧ ∀ r, login env = some r → r.outcome ≠ Outcome.aborted ∧ r.Scope = env.Scope := by
  have hres : resolveScope env = (Resolution.Proceed env.Scope, []) := by
    unfold resolveScope
    rcases h with h | h <;> simp [h]
  exact ⟨hres, login_of_proceed env env.Scope [] hres⟩

/-- Claim C5 at the first login `freshEnv`, which has no previous token. -/
theorem no_conflict_proceeds_witness :
    resolveScope freshEnv = (Resolution.Proceed "/project", [])
      ∧ ∀ r, login freshEnv = some r →
          r.outcome ≠ Outcome.aborted ∧ r.Scope = "/project" :=
  no_conflict_proceeds freshEnv (Or.inl (by decide))

/-- Claim C4.  In a scope conflict (the previous token is not empty, the
overwrite flag is unset, and the absolute previous and requested scopes are
the same path) whose path is the current working directory, one yes/no prompt
is shown.  When the user declines, the run aborts having made that prompt its
only call: no call to the remote API, no store write, so every store is left
as it was.  When the user confirms, the step proceeds with the requested
scope. -/
theorem conflict_in_cwd (env : LoginEnv) (p : String)
    (htok : env.prevConfig.Token.Value ≠ "") (how : env.overwrite = false)
    (hprev : env.Abs env.prevConfig.Token.Scope = some p)
    (hnew : env.Abs env.Scope = some p) (hcwd : p = env.Cwd) :
    (env.confirmOverwrite = false →
        resolveScope env = (Resolution.Abort, [overwritePrompt])
        ∧ login env = some ⟨Outcome.aborted, env.Scope, [overwritePrompt]⟩
        ∧ (∀ e ∈ [overwritePrompt], e.isRemote = false ∧ e.isConfigSet = false)
        ∧ ∀ store, finalStore store [overwritePrompt] = store)
      ∧ (env.confirmOverwrite = true →
        resolveScope env = (Resolution.Proceed env.Scope, [overwritePrompt])) := by
  constructor
  · intro hno
    have hres : resolveScope env = (Resolution.Abort, [overwritePrompt]) := by
      unfold resolveScope
      simp [htok, how, hprev, hnew, hcwd, hno]
    refine ⟨hres, ?_, ?_, fun store => rfl⟩
    · unfold login
      rw [hres]
    · intro e he
      simp only [List.mem_singleton] at he
      subst he
      exact ⟨rfl, rfl⟩
  · intro hyes
    unfold resolveScope
    simp [htok, how, hprev, hnew, hcwd, hyes]

/-- Claim C4 at `declineEnv`: `login --scope /` run in `/` on a store that holds
a token at `/`, the user declining. -/
theorem conflict_in_cwd_witness :
    resolveScope declineEnv = (Resolution.Abort, [overwritePrompt])
      ∧ login declineEnv = some ⟨Outcome.aborted, "/", [overwritePrompt]⟩
      ∧ (∀ e ∈ [overwritePrompt], e.isRemote = false ∧ e.isConfigSet = false)
      ∧ ∀ store, finalStore store [overwritePrompt] = store :=
  (conflict_in_cwd declineEnv "/" (by decide) (by decide) (by decide) (by decide)
    (by decide)).1 (by decide)

/-- Claim C6.  In a scope conflict whose path `p` is not the current working
directory, the step shows exactly one prompt, a choice between two different
options: "Scope login to current directory (cwd)" and "Overwrite existing login
(p)", the latter reading "Overwrite global login (/)" when `p` is the root; the
first option is the default.  The step does not abort.  When the string the
prompt returns is the first option shown, the step proceeds with the current
working directory as scope; when it is the second option shown, it proceeds
with the requested scope.  The run then starts with that prompt, does not
abort, and ends with that scope. -/
theorem conflict_outside_cwd (env : LoginEnv) (p : String)
    (htok : env.prevConfig.Token.Value ≠ "") (how : env.overwrite = false)
    (hprev : env.Abs env.prevConfig.Token.Scope = some p)
    (hnew : env.Abs env.Scope = some p) (hcwd : p ≠ env.Cwd) :
    ∃ first second : String,
      first = "Scope login to current directory (" ++ env.Cwd ++ ")"
      ∧ second = (if p = "/" then "Overwrite global login (" ++ p ++ ")"
          else "Overwrite existing login (" ++ p ++ ")")
      ∧ first ≠ second
      ∧ (resolveScope env).2 = [Event.selectPrompt "Select an option:" [first, second] first]
      ∧ (resolveScope env).1 ≠ Resolution.Abort
      ∧ (env.selection = first →
          (resolveScope env).1 = Resolution.Proceed env.Cwd
          ∧ ∀ r, login env = some r →
              r.outcome ≠ Outcome.aborted ∧ r.Scope = env.Cwd
              ∧ ∃ rest, r.trace
                  = Event.selectPrompt "Select an option:" [first, second] first :: rest)
      ∧ (env.selection = second →
          (resolveScope env).1 = Resolution.Proceed env.Scope
          ∧ ∀ r, login env = some r →
              r.outcome ≠ Outcome.aborted ∧ r.Scope = env.Scope
              ∧ ∃ rest, r.trace
                  = Event.selectPrompt "Select an option:" [first, second] first :: rest) := by
  have hshown : scopeSelectPrompt env.Cwd p
      = Event.selectPrompt "Select an option:"
          ["Scope login to current directory (" ++ env.Cwd ++ ")",
           if p = "/" then "Overwrite global login (" ++ p ++ ")"
           else "Overwrite existing login (" ++ p ++ ")"]
          ("Scope login to current directory (" ++ env.Cwd ++ ")") := rfl
  have hdiff : "Scope login to current directory (" ++ env.Cwd ++ ")"
      ≠ (if p = "/" then "Overwrite global login (" ++ p ++ ")"
          else "Overwrite existing login (" ++ p ++ ")") :=
    optionCwd_ne_optionOverwrite env.Cwd p
  refine ⟨_, _, rfl, rfl, hdiff, ?_⟩
  by_cases hsel : env.selection = optionCwd env.Cwd
  · have hres : resolveScope env
        = (Resolution.Proceed env.Cwd, [scopeSelectPrompt env.Cwd p]) := by
      unfold resolveScope
      simp [htok, how, hprev, hnew, hcwd, hsel]
    refine ⟨by rw [hres, hshown], by rw [hres]; simp,
      fun _ => ⟨by rw [hres], fun r hr => ?_⟩, fun h2 => ?_⟩
    · obtain ⟨rest, hrest⟩ := login_trace_of_proceed env env.Cwd _ hres r hr
      exact ⟨(login_of_proceed env env.Cwd _ hres r hr).1,
        (login_of_proceed env env.Cwd _ hres r hr).2, rest, by rw [hrest, hshown]; rfl⟩
    · exact absurd (hsel.symm.trans h2) hdiff
  · have hres : resolveScope env
        = (Resolution.Proceed env.Scope, [scopeSelectPrompt env.Cwd p]) := by
      unfold resolveScope
      simp [htok, how, hprev, hnew, hcwd, hsel]
    refine ⟨by rw [hres, hshown], by rw [hres]; simp,
      fun h1 => absurd h1 hsel, fun _ => ⟨by rw [hres], fun r hr => ?_⟩⟩
    obtain ⟨rest, hrest⟩ := login_trace_of_proceed env env.Scope _ hres r hr
    exact ⟨(login_of_proceed env env.Scope _ hres r hr).1,
      (login_of_proceed env env.Scope _ hres r hr).2, rest, by rw [hrest, hshown]; rfl⟩

/-- Claim C6 at `narrowEnv`: `login` with the default scope `/` run in
`/project` on a store that holds a token at `/`.  The choice shown is between
"Scope login to current directory (/project)" and "Overwrite global login (/)";
the first option is selected, the step proceeds with `/project`, and the run
starts with the choice and ends with the scope `/project`. -/
theorem conflict_outside_cwd_witness :
    resolveScope narrowEnv
        = (Resolution.Proceed "/project",
            [Event.selectPrompt "Select an option:"
              ["Scope login to current directory (/project)", "Overwrite global login (/)"]
              "Scope login to current directory (/project)"])
      ∧ narrowEnv.selection = "Scope login to current directory (/project)"
      ∧ (login narrowEnv).map (fun r => (r.outcome, r.Scope, r.trace.head?))
        = some (Outcome.completed, "/project",
            some (Event.selectPrompt "Select an option:"
              ["Scope login to current directory (/project)", "Overwrite global login (/)"]
              "Scope login to current directory (/project)"))
      ∧ ∃ first second : String,
        first = "Scope login to current directory (" ++ narrowEnv.Cwd ++ ")"
        ∧ second = (if "/" = "/" then "Overwrite global login (" ++ "/" ++ ")"
            else "Overwrite existing login (" ++ "/" ++ ")")
        ∧ first ≠ second
        ∧ (resolveScope narrowEnv).2
            = [Event.selectPrompt "Select an option:" [first, second] first]
        ∧ (resolveScope narrowEnv).1 ≠ Resolution.Abort
        ∧ (narrowEnv.selection = first →
            (resolveScope narrowEnv).1 = Resolution.Proceed narrowEnv.Cwd
            ∧ ∀ r, login narrowEnv = some r →
                r.outcome ≠ Outcome.aborted ∧ r.Scope = narrowEnv.Cwd
                ∧ ∃ rest, r.trace
                    = Event.selectPrompt "Select an option:" [first, second] first :: rest)
        ∧ (narrowEnv.selection = second →
            (resolveScope narrowEnv).1 = Resolution.Proceed narrowEnv.Scope
            ∧ ∀ r, login narrowEnv = some r →
                r.outcome ≠ Outcome.aborted ∧ r.Scope = narrowEnv.Scope
                ∧ ∃ rest, r.trace
                    = Event.selectPrompt "Select an option:" [first, second] first :: rest) :=
  ⟨by decide, by decide, by decide,
    conflict_outside_cwd narrowEnv "/" (by decide) (by decide) (by decide) (by decide)
      (by decide)⟩

/-! ## Store writes and revocation -/

/-- Claim C7.  A run that does not complete (it aborts, fails, times out, is
denied, or stops on a malformed response) makes no store write, so every store
is at exit what it was at entry; and a run that makes a store write has left
the polling loop with a response that has no `error` field. -/
theorem no_write_unless_completed (env : LoginEnv) (r : LoginResult)
    (h : login env = some r) :
    (r.outcome ≠ Outcome.completed →
        (∀ e ∈ r.trace, e.isConfigSet = false) ∧ ∀ store, finalStore store r.trace = store)
      ∧ ((∃ e ∈ r.trace, e.isConfigSet = true) →
        r.outcome = Outcome.completed
        ∧ ∃ code resp receivedAt tr,
            runPolling env code = some (PollExit.response (some resp) receivedAt, tr)
            ∧ resp.lookup "error" = none) := by
  obtain ⟨pre, post, htr, hpre, hpost⟩ := login_shape env r h
  rcases hpost with ⟨hne, hnil⟩ | ⟨hc, code, resp, t, tr, token, name, dashboard, hrp, hE, _⟩
  · subst hnil
    have hno : ∀ e ∈ r.trace, e.isConfigSet = false := by
      intro e he
      rw [htr, List.append_nil] at he
      exact (hpre e he).1
    refine ⟨fun _ => ⟨hno, fun store => finalStore_of_no_write store r.trace hno⟩, ?_⟩
    rintro ⟨e, he, hset⟩
    rw [hno e he] at hset
    exact absurd hset (by decide)
  · exact ⟨fun hne => absurd hc hne, fun _ => ⟨hc, code, resp, t, tr, hrp, hE⟩⟩

/-- Claim C7 at `declineEnv`, a run that aborts: the store `{/: old}` is left as
it was. -/
theorem no_write_unless_completed_witness :
    (∀ e ∈ [overwritePrompt], e.isConfigSet = false)
      ∧ ∀ store, finalStore store [overwritePrompt] = store :=
  (no_write_unless_completed declineEnv ⟨Outcome.aborted, "/", [overwritePrompt]⟩
    (by decide)).1 (by decide)

/-- Claim C9.  A run that completes has left the polling loop with a response
whose `token`, `name` and `dashboard_url` are strings, and makes exactly one
store write: at the final scope, with the token of the response, the API host
of the session, the dashboard URL of the response, and a TLS flag exactly when
the session does not verify TLS. -/
theorem completed_writes_once (env : LoginEnv) (r : LoginResult)
    (h : login env = some r) (hc : r.outcome = Outcome.completed) :
    ∃ code resp receivedAt tr token name dashboard options,
      runPolling env code = some (PollExit.response (some resp) receivedAt, tr)
      ∧ resp.lookup "token" = some (Value.str token)
      ∧ resp.lookup "name" = some (Value.str name)
      ∧ resp.lookup "dashboard_url" = some (Value.str dashboard)
      ∧ r.trace.filter Event.isConfigSet = [Event.configSet r.Scope options]
      ∧ options.lookup ConfigOption.ConfigToken = some token
      ∧ options.lookup ConfigOption.ConfigAPIHost = some env.localConfig.APIHost.Value
      ∧ options.lookup ConfigOption.ConfigDashboardHost = some dashboard
      ∧ ((options.lookup ConfigOption.ConfigVerifyTLS).isSome = true
          ↔ sessionVerifyTLS env = false)
      ∧ (sessionVerifyTLS env = false →
          options.lookup ConfigOption.ConfigVerifyTLS
            = some env.localConfig.VerifyTLS.Value) := by
  obtain ⟨pre, post, htr, hpre, hpost⟩ := login_shape env r h
  rcases hpost with ⟨hne, _⟩ |
    ⟨_, code, resp, t, tr, token, name, dashboard, hrp, _, ht, hn, hd, hpost⟩
  · exact absurd hc hne
  · refine ⟨code, resp, t, tr, token, name, dashboard,
      loginOptions env (sessionVerifyTLS env) token dashboard, hrp, ht, hn, hd, ?_, ?_⟩
    · have hprefilter : pre.filter Event.isConfigSet = [] := by
        rw [List.filter_eq_nil_iff]
        intro e he
        simp [(hpre e he).1]
      rw [htr, hpost, List.filter_append, hprefilter, List.nil_append, List.filter_cons]
      simp [Event.isConfigSet, (revokePrevious_events env r.Scope (sessionVerifyTLS env)).1]
    · unfold loginOptions
      cases hv : sessionVerifyTLS env
      · exact ⟨rfl, rfl, rfl, ⟨fun _ => rfl, fun _ => rfl⟩, fun _ => rfl⟩
      · exact ⟨rfl, rfl, rfl,
          ⟨fun hsome => Bool.noConfusion (show false = true from hsome),
            fun hf => Bool.noConfusion hf⟩,
          fun hf => Bool.noConfusion hf⟩

/-- Claim C9 at `freshEnv`: empty store, requested scope `/project`, token
`tok_123`, name `Alice`.  The run is `freshRun`, and after it the store holds
exactly one entry, at `/project`, with the token `tok_123`. -/
theorem completed_writes_once_witness :
    login freshEnv = some freshRun
      ∧ finalStore [] freshRun.trace
        = [("/project", ⟨"tok_123", "https://api.doppler.com",
            "https://dashboard.doppler.com", ""⟩)]
      ∧ ∃ code resp receivedAt tr token name dashboard options,
        runPolling freshEnv code = some (PollExit.response (some resp) receivedAt, tr)
        ∧ resp.lookup "token" = some (Value.str token)
        ∧ resp.lookup "name" = some (Value.str name)
        ∧ resp.lookup "dashboard_url" = some (Value.str dashboard)
        ∧ freshRun.trace.filter Event.isConfigSet = [Event.configSet freshRun.Scope options]
        ∧ options.lookup ConfigOption.ConfigToken = some token
        ∧ options.lookup ConfigOption.ConfigAPIHost = some freshEnv.localConfig.APIHost.Value
        ∧ options.lookup ConfigOption.ConfigDashboardHost = some dashboard
        ∧ ((options.lookup ConfigOption.ConfigVerifyTLS).isSome = true
            ↔ sessionVerifyTLS freshEnv = false)
        ∧ (sessionVerifyTLS freshEnv = false →
            options.lookup ConfigOption.ConfigVerifyTLS
              = some freshEnv.localConfig.VerifyTLS.Value) :=
  ⟨by decide, by decide, completed_writes_once freshEnv freshRun (by decide) (by decide)⟩

/-- Claim C3.  In a run that completes, when the previous token is not empty
and the absolute previous scope and the absolute final scope are the same
path, `RevokeAuthToken` is called exactly once, with the previous token; in
every other case it is not called. -/
theorem completed_revokes_previous (env : LoginEnv) (r : LoginResult)
    (h : login env = some r) (hc : r.outcome = Outcome.completed) :
    ((env.prevConfig.Token.Value ≠ ""
          ∧ ∃ p, env.Abs env.prevConfig.Token.Scope = some p ∧ env.Abs r.Scope = some p) →
        ∃ apiHost verifyTLS, r.trace.filter Event.isRevoke
          = [Event.revokeAuthToken apiHost verifyTLS env.prevConfig.Token.Value])
      ∧ (¬ (env.prevConfig.Token.Value ≠ ""
          ∧ ∃ p, env.Abs env.prevConfig.Token.Scope = some p ∧ env.Abs r.Scope = some p) →
        r.trace.filter Event.isRevoke = []) := by
  obtain ⟨pre, post, htr, hpre, hpost⟩ := login_shape env r h
  rcases hpost with ⟨hne, _⟩ |
    ⟨_, code, resp, t, tr, token, name, dashboard, hrp, _, ht, hn, hd, hpost⟩
  · exact absurd hc hne
  · have hprefilter : pre.filter Event.isRevoke = [] := by
      rw [List.filter_eq_nil_iff]
      intro e he
      simp [(hpre e he).2]
    have hfilter : r.trace.filter Event.isRevoke
        = revokePrevious env r.Scope (sessionVerifyTLS env) := by
      rw [htr, hpost, List.filter_append, hprefilter, List.nil_append, List.filter_cons]
      simp [Event.isRevoke, (revokePrevious_events env r.Scope (sessionVerifyTLS env)).2]
    rw [hfilter]
    constructor
    · rintro ⟨htok, p, hprev, hnew⟩
      exact ⟨env.prevConfig.APIHost.Value,
        GetBool env.prevConfig.VerifyTLS.Value (sessionVerifyTLS env),
        by simp [revokePrevious, htok, hprev, hnew]⟩
    · intro hnot
      unfold revokePrevious
      split
      · rename_i htok
        split
        · rename_i prevScope newScope hprev hnew
          split
          · rename_i heq
            exact absurd ⟨htok, prevScope, hprev, heq ▸ hnew⟩ hnot
          · rfl
        · rfl
      · rfl

/-- Claim C3 at `reloginEnv`: store `{/: old}`, `login --scope /` run in `/`,
the overwrite confirmed, the session completing with the token `new`.  The
run is `reloginRun`; after it the store holds `new` at `/` and the token `old`
has been submitted for revocation exactly once. -/
theorem completed_revokes_previous_witness :
    login reloginEnv = some reloginRun
      ∧ (finalStore oldStore reloginRun.trace).map (fun e => (e.1, e.2.Token))
        = [("/", "new")]
      ∧ ∃ apiHost verifyTLS, reloginRun.trace.filter Event.isRevoke
          = [Event.revokeAuthToken apiHost verifyTLS "old"] :=
  ⟨by decide, by decide,
    (completed_revokes_previous reloginEnv reloginRun (by decide) (by decide)).1
      ⟨by decide, "/", by decide, by decide⟩⟩

/-- Claim C10 fails on the code at `insecureEnv`.  The superseded record has no
stored TLS flag, which denotes the default `true`; the new session does not
verify TLS.  The revocation of the token `old` is sent to the record's API
host with the record's token, but with TLS verification off: line 177 falls
back to the flag of the new session, not to `true`. -/
theorem revoke_falls_back_to_session_flag :
    (login insecureEnv).map (fun r => r.trace.filter Event.isRevoke)
        = some [Event.revokeAuthToken "https://api.old.example" false "old"]
      ∧ insecureEnv.prevConfig.VerifyTLS.Value = ""
      ∧ GetBool insecureEnv.prevConfig.VerifyTLS.Value true = true
      ∧ sessionVerifyTLS insecureEnv = false := by
  decide

/-! ## Roll -/

/-- In a store with unique scopes an entry is found under its scope. -/
theorem lookup_of_mem_nodup (store : Store) (scope : String) (c : FileScopedOptions)
    (hnodup : (store.map Prod.fst).Nodup) (hmem : (scope, c) ∈ store) :
    store.lookup scope = some c := by
  induction store with
  | nil => simp at hmem
  | cons e rest ih =>
    obtain ⟨k, v⟩ := e
    simp only [List.map_cons, List.nodup_cons, List.mem_map, Prod.exists, exists_and_right,
      exists_eq_right, not_exists] at hnodup
    simp only [List.mem_cons, Prod.mk.injEq] at hmem
    rcases hmem with ⟨hk, hv⟩ | hmem
    · subst hk hv
      simp [List.lookup]
    · have hne : scope ≠ k := fun heq => hnodup.1 c (heq ▸ hmem)
      have hbeq : (scope == k) = false := by simpa using hne
      simp only [List.lookup, hbeq]
      exact ih hnodup.2 hmem

/-- Setting the token of a scope that occurs once in the store replaces the
token of that entry and nothing else. -/
theorem Set_token_at (pre suf : Store) (scope token : String) (c : FileScopedOptions)
    (hpre : ∀ e ∈ pre, e.1 ≠ scope) (hsuf : ∀ e ∈ suf, e.1 ≠ scope) :
    configuration.Set (pre ++ (scope, c) :: suf) scope [(ConfigOption.ConfigToken, token)]
      = pre ++ (scope, { c with Token := token }) :: suf := by
  have hlook : (pre ++ (scope, c) :: suf).lookup scope = some c := by
    induction pre with
    | nil => simp [List.lookup]
    | cons e rest ih =>
      have hne : e.1 ≠ scope := hpre e (List.mem_cons_self e rest)
      have hbeq : (scope == e.1) = false := by simpa using fun h => hne h.symm
      obtain ⟨k, v⟩ := e
      simp only [List.cons_append, List.lookup]
      simp only at hbeq
      rw [hbeq]
      exact ih (fun e' he' => hpre e' (List.mem_cons_of_mem _ he'))
  have hmap : ∀ (l : Store) (x : String × FileScopedOptions), (∀ e ∈ l, e.1 ≠ scope) →
      l.map (fun e => if e.1 = scope then x else e) = l := by
    intro l x hl
    induction l with
    | nil => rfl
    | cons e rest ih =>
      simp only [List.map_cons, hl e (List.mem_cons_self e rest), if_false]
      rw [ih (fun e' he' => hl e' (List.mem_cons_of_mem _ he'))]
  unfold configuration.Set
  simp only [hlook, Option.getD_some, List.foldl_cons, List.foldl_nil,
    configuration.SetConfigValue]
  have hany : (pre ++ (scope, c) :: suf).any (fun e => e.1 == scope) = true := by
    simp
  rw [if_pos hany, List.map_append, List.map_cons, hmap pre _ hpre, hmap suf _ hsuf]
  simp

/-- The loop of the roll command, run on the part `suf` of the snapshot that is
still to be visited, the entries `pre` visited before being rolled already. -/
theorem rollUpdates_spec (oldToken newToken : String) :
    ∀ (suf pre : Store), ((pre ++ suf).map Prod.fst).Nodup →
      finalStore (pre.map (rolledEntry oldToken newToken) ++ suf)
          (rollUpdates oldToken newToken suf)
        = (pre ++ suf).map (rolledEntry oldToken newToken) := by
  intro suf
  induction suf with
  | nil =>
    intro pre _
    simp [rollUpdates, finalStore]
  | cons e rest ih =>
    intro pre hnodup
    obtain ⟨k, c⟩ := e
    have hnext : ((pre ++ [(k, c)]) ++ rest).map Prod.fst |>.Nodup := by
      simpa using hnodup
    have hih := ih (pre ++ [(k, c)]) hnext
    simp only [List.map_append, List.map_cons, List.map_nil, List.append_assoc,
      List.singleton_append] at hih
    rw [List.map_append, List.map_cons]
    by_cases htok : c.Token = oldToken
    · have hkpre : ∀ e ∈ pre.map (rolledEntry oldToken newToken), e.1 ≠ k := by
        intro e he
        simp only [List.mem_map] at he
        obtain ⟨e0, he0, hee⟩ := he
        have hfst : e.1 = e0.1 := by
          rw [← hee]
          unfold rolledEntry
          split <;> rfl
        rw [hfst]
        intro heq
        simp only [List.map_append, List.map_cons, List.nodup_append, List.nodup_cons] at hnodup
        exact hnodup.2.2 (List.mem_map.mpr ⟨e0, he0, heq⟩) (List.mem_cons_self _ _)
      have hkrest : ∀ e ∈ rest, e.1 ≠ k := by
        intro e he heq
        simp only [List.map_append, List.map_cons, List.nodup_append, List.nodup_cons] at hnodup
        exact hnodup.2.1.1 (List.mem_map.mpr ⟨e, he, heq⟩)
      have hset := Set_token_at (pre.map (rolledEntry oldToken newToken)) rest k newToken c
        hkpre hkrest
      have hrolled : rolledEntry oldToken newToken (k, c) = (k, { c with Token := newToken }) := by
        simp [rolledEntry, htok]
      simp only [rollUpdates, htok, if_true, finalStore, List.foldl_cons, applyEvent]
      rw [hset, ← hrolled]
      exact hih
    · have hrolled : rolledEntry oldToken newToken (k, c) = (k, c) := by
        simp [rolledEntry, htok]
      simp only [rollUpdates, htok, if_false]
      rw [hrolled] at hih ⊢
      exact hih

/-- Claim C2.  On a store with unique scopes, a roll from a non-empty current
token `T` that the remote side answers with the token `T'`, without
`--no-update-config`, succeeds and leaves the store with every record whose
token was `T` holding `T'` and otherwise as it was, every record whose token
was not `T` unchanged, and the same scopes. -/
theorem roll_propagates (env : RollEnv) (store : Store) (T T' : String) (resp : Response)
    (hnodup : (store.map Prod.fst).Nodup)
    (hT : env.localConfig.Token.Value = T) (hne : T ≠ "")
    (herr : env.rollErr = none) (hresp : env.rollResp = some resp)
    (htok : resp.lookup "token" = some (Value.str T'))
    (hupd : env.noUpdateConfig = false) :
    (loginRoll env store).1 = RollOutcome.rolled
      ∧ finalStore store (loginRoll env store).2 = store.map (rolledEntry T T')
      ∧ (finalStore store (loginRoll env store).2).map Prod.fst = store.map Prod.fst
      ∧ (∀ scope c, (scope, c) ∈ store → c.Token = T →
          (finalStore store (loginRoll env store).2).lookup scope
            = some { c with Token := T' })
      ∧ (∀ scope c, (scope, c) ∈ store → c.Token ≠ T →
          (finalStore store (loginRoll env store).2).lookup scope = some c) := by
  have hrun : loginRoll env store
      = (RollOutcome.rolled,
          Event.rollAuthToken env.localConfig.APIHost.Value
              (GetBool env.localConfig.VerifyTLS.Value true) T
            :: rollUpdates T T' store) := by
    unfold loginRoll
    simp [hne, herr, hresp, htok, hupd, hT, configuration.AllConfigs]
  have hfinal : finalStore store (loginRoll env store).2 = store.map (rolledEntry T T') := by
    rw [hrun]
    have := rollUpdates_spec T T' store [] (by simpa using hnodup)
    simpa [finalStore, applyEvent] using this
  have hfst : (store.map (rolledEntry T T')).map Prod.fst = store.map Prod.fst := by
    rw [List.map_map]
    apply List.map_congr_left
    intro e _
    simp only [Function.comp, rolledEntry]
    split <;> rfl
  refine ⟨by rw [hrun], hfinal, by rw [hfinal, hfst], ?_, ?_⟩
  · intro scope c hmem hc
    rw [hfinal]
    apply lookup_of_mem_nodup _ _ _ (by rw [hfst]; exact hnodup)
    exact List.mem_map.mpr ⟨(scope, c), hmem, by simp [rolledEntry, hc]⟩
  · intro scope c hmem hc
    rw [hfinal]
    apply lookup_of_mem_nodup _ _ _ (by rw [hfst]; exact hnodup)
    exact List.mem_map.mpr ⟨(scope, c), hmem, by simp [rolledEntry, hc]⟩

/-- Claim C2 at `sharedStore`: `/a` and `/b` hold `T`, `/c` holds `U`; rolling from
`/a` puts `T2` at `/a` and at `/b` and leaves `U` at `/c`. -/
theorem roll_propagates_witness :
    (finalStore sharedStore (loginRoll rollEnv sharedStore).2).map
        (fun e => (e.1, e.2.Token))
        = [("/a", "T2"), ("/b", "T2"), ("/c", "U")]
      ∧ (loginRoll rollEnv sharedStore).1 = RollOutcome.rolled
      ∧ finalStore sharedStore (loginRoll rollEnv sharedStore).2
        = sharedStore.map (rolledEntry "T" "T2")
      ∧ (finalStore sharedStore (loginRoll rollEnv sharedStore).2).map Prod.fst
        = sharedStore.map Prod.fst
      ∧ (∀ scope c, (scope, c) ∈ sharedStore → c.Token = "T" →
          (finalStore sharedStore (loginRoll rollEnv sharedStore).2).lookup scope
            = some { c with Token := "T2" })
      ∧ (∀ scope c, (scope, c) ∈ sharedStore → c.Token ≠ "T" →
          (finalStore sharedStore (loginRoll rollEnv sharedStore).2).lookup scope = some c) :=
  ⟨by decide,
    roll_propagates rollEnv sharedStore "T" "T2" [("token", Value.str "T2")]
      (by decide) (by decide) (by decide) (by decide) (by decide) (by decide) (by decide)⟩

/-- Claim C8 at `retryPolls`, two conflict answers followed by a success, with
a deadline of five minutes: the loop makes the calls `retryTrace` (two rounds
of "poll, wait two seconds", then the poll that is answered) and is left with
`retryExit`. -/
theorem conflict_answer_retries_witness :
    pollLoop "https://api.doppler.com" true "c0de" retryPolls (5 * Minute) 5 0 0
        = some (retryExit, retryTrace)
      ∧ ∃ k : Nat,
        (∀ j, j < k → ∃ e, (retryPolls (0 + j)).err = some e ∧ e.Code = 409
            ∧ clockAfter retryPolls j 0 0 ≤ 5 * Minute)
        ∧ ((retryExit = PollExit.timedOut ∧ 5 * Minute < clockAfter retryPolls k 0 0
              ∧ retryTrace
                = conflictRounds "https://api.doppler.com" true "c0de" retryPolls k 0 0)
          ∨ (∃ e, (retryPolls (0 + k)).err = some e ∧ e.Code ≠ 409
              ∧ clockAfter retryPolls k 0 0 ≤ 5 * Minute ∧ retryExit = PollExit.failed e
              ∧ retryTrace
                = conflictRounds "https://api.doppler.com" true "c0de" retryPolls k 0 0
                  ++ [Event.getAuthToken "https://api.doppler.com" true "c0de"
                        (clockAfter retryPolls k 0 0)])
          ∨ ((retryPolls (0 + k)).err = none ∧ clockAfter retryPolls k 0 0 ≤ 5 * Minute
              ∧ retryExit = PollExit.response (retryPolls (0 + k)).resp
                    (clockAfter retryPolls k 0 0 + (retryPolls (0 + k)).latency)
              ∧ retryTrace
                = conflictRounds "https://api.doppler.com" true "c0de" retryPolls k 0 0
                  ++ [Event.getAuthToken "https://api.doppler.com" true "c0de"
                        (clockAfter retryPolls k 0 0)])) :=
  ⟨by decide,
    conflict_answer_retries "https://api.doppler.com" true "c0de" retryPolls (5 * Minute)
      5 0 0 retryExit retryTrace (by decide)⟩

end Doppler
